import Mathlib

/-!
Shallow embedding of the search and article-structuring core of the
PFA-Scraping-Morocco-History repository.

The search engine is `searchEvents` in
`src/Frontend/my-app/src/services/database.ts`; the HTTP boundary is the
`GET` handler in `src/Frontend/my-app/src/app/api/historical-events/search/route.ts`.
Strings are modelled as `String` / `List Char`; the MongoDB collection of one
language partition is a `List EventDoc`; the native text index (Tier 1) and
the reachability of the store are modelled as an oracle environment
`SearchEnv`, since they are external collaborators.
-/

/-- One event record inside a document: `event_name`, `article_title`,
`sections` with `subtitle` and `paragraphs.text` (from the `HistoricalEvent`
interface of database.ts). -/
structure EventParagraph where
  text : String
deriving DecidableEq

structure EventSection where
  subtitle : String
  paragraphs : List EventParagraph
deriving DecidableEq

structure EventRecord where
  event_name : String
  article_title : String
  sections : List EventSection
deriving DecidableEq

/-- One MongoDB document of a language collection (`articles_xx`):
a big-event grouping. -/
structure EventDoc where
  docId : String
  big_event_name : String
  events : List EventRecord
deriving DecidableEq

/-- The `SearchResult` interface of database.ts: a document plus an optional
score (tier-2 scoring sets it; tier-1 results carry the index score). -/
structure SearchResult where
  docId : String
  big_event_name : String
  events : List EventRecord
  score : Option Nat
deriving DecidableEq

/-- `{...doc, score}` in the tier-2 scoring map. -/
def toResult (d : EventDoc) (s : Nat) : SearchResult :=
  { docId := d.docId, big_event_name := d.big_event_name, events := d.events, score := some s }

/-- Projection of a search result back to the stored document. -/
def resultDoc (r : SearchResult) : EventDoc :=
  { docId := r.docId, big_event_name := r.big_event_name, events := r.events }

/-- Charwise lowercasing, the model of JavaScript `toLowerCase()`. -/
def lowerL (cs : List Char) : List Char := cs.map Char.toLower

/-- Strip leading whitespace. -/
def dropWsL (cs : List Char) : List Char := cs.dropWhile Char.isWhitespace

/-- The model of JavaScript `trim()`: strip whitespace at both ends. -/
def trimL (cs : List Char) : List Char := ((dropWsL cs.reverse).reverse) |> dropWsL

/-- Accumulator pass for `splitWs`: `acc` holds the reversed current word. -/
def splitWsAux : List Char → List Char → List (List Char)
  | [], acc => if acc.isEmpty then [] else [acc.reverse]
  | c :: t, acc =>
    if c.isWhitespace then
      if acc.isEmpty then splitWsAux t [] else acc.reverse :: splitWsAux t []
    else splitWsAux t (c :: acc)

/-- `split(/\s+/)` followed by `filter(word => word.length > 0)`: the maximal
non-whitespace runs of the string. -/
def splitWs (cs : List Char) : List (List Char) := splitWsAux cs []

/-- `const cleanQuery = query.trim().toLowerCase()` of searchEvents. -/
def normQuery (query : String) : List Char := lowerL (trimL query.data)

/-- `const queryWords = cleanQuery.split(/\s+/).filter(word => word.length > 0)`. -/
def queryWordsOf (query : String) : List (List Char) := splitWs (normQuery query)

/-- Does `n` occur as a contiguous substring of `h`? (JavaScript
`String.includes`.) -/
def listContains (n : List Char) : List Char → Bool
  | [] => n.isEmpty
  | c :: t => n.isPrefixOf (c :: t) || listContains n t

/-- One item of a (modelled) regular-expression pattern: a literal character
or the `.` wildcard.  The two constructs are the only ones produced by the
query strings this model reasons about; every other character is read as a
literal, as in JavaScript regexes. -/
inductive PatItem
  | lit (c : Char)
  | anyChar
deriving DecidableEq

/-- Reading a JavaScript regex source string: `\c` is the literal `c`,
an unescaped `.` matches any character, anything else is a literal. -/
def parsePat : List Char → List PatItem
  | [] => []
  | '\\' :: c :: t => PatItem.lit c :: parsePat t
  | '\\' :: [] => []
  | '.' :: t => PatItem.anyChar :: parsePat t
  | c :: t => PatItem.lit c :: parsePat t

/-- Case-insensitive single-character match (the `i` flag of every regex
built by searchEvents). -/
def itemMatch : PatItem → Char → Bool
  | PatItem.lit l, c => l.toLower == c.toLower
  | PatItem.anyChar, _ => true

/-- Does the pattern match a leading segment of the text? -/
def patMatchAt : List PatItem → List Char → Bool
  | [], _ => true
  | _ :: _, [] => false
  | p :: ps, c :: cs => itemMatch p c && patMatchAt ps cs

/-- Unanchored regex test (`$regex` on a field value). -/
def patSearch (ps : List PatItem) : List Char → Bool
  | [] => ps.isEmpty
  | c :: t => patMatchAt ps (c :: t) || patSearch ps t

/-- `cleanQuery.replace(/[.*+?^${}()|[\]\\]/g, '\\$&')`: prepend a backslash
to every regex metacharacter. -/
def isRegexMeta (c : Char) : Bool :=
  c == '.' || c == '*' || c == '+' || c == '?' || c == '^' || c == '$' ||
  c == '\x7b' || c == '\x7d' || c == '(' || c == ')' || c == '|' ||
  c == '[' || c == ']' || c == '\\'

def escapeRegex : List Char → List Char
  | [] => []
  | c :: t => if isRegexMeta c then '\\' :: c :: escapeRegex t else c :: escapeRegex t

/-- The five indexed text fields of a document, in the order the search
conditions name them: `big_event_name`, `events.event_name`,
`events.article_title`, `events.sections.subtitle`,
`events.sections.paragraphs.text` (a dotted path matches when some array
element matches). -/
def docFields (d : EventDoc) : List String :=
  d.big_event_name ::
    (d.events.map (fun e => e.event_name) ++
     d.events.map (fun e => e.article_title) ++
     (d.events.map (fun e => e.sections.map (fun s => s.subtitle))).flatten ++
     (d.events.map (fun e => (e.sections.map (fun s => s.paragraphs.map (fun p => p.text))).flatten)).flatten)

/-- The exact-phrase `$or` block of the tier-2 query: the escaped clean query
as a case-insensitive regex over the five fields. -/
def phraseCond (cq : List Char) (d : EventDoc) : Bool :=
  (docFields d).any fun f => patSearch (parsePat (escapeRegex cq)) f.data

/-- The per-word `$and` block of the tier-2 query: every query word, passed
unescaped as a case-insensitive regex, must match some field. -/
def wordCond (qw : List (List Char)) (d : EventDoc) : Bool :=
  qw.all fun w => (docFields d).any fun f => patSearch (parsePat w) f.data

/-- The tier-2 `searchQuery`: `$or` of the conditions that were pushed; when
no condition was pushed the query stays `{}` and matches every document. -/
def docMatchesTier2 (cq : List Char) (qw : List (List Char)) (d : EventDoc) : Bool :=
  let conds : List Bool :=
    (if 2 < cq.length then [phraseCond cq d] else []) ++
    (if 1 < qw.length then [wordCond qw d] else [])
  if conds.isEmpty then true else conds.any id

/-- The custom tier-2 scoring of searchEvents: +10 for the clean query in the
lowered group name, +5 for the first query word there, +3 per event name and
+3 per article title containing the clean query. -/
def scoreDoc (cq : List Char) (qw : List (List Char)) (d : EventDoc) : Nat :=
  (if listContains cq (lowerL d.big_event_name.data) then 10 else 0)
  + (if listContains (qw.headD []) (lowerL d.big_event_name.data) then 5 else 0)
  + (d.events.map (fun e =>
      (if listContains cq (lowerL e.event_name.data) then 3 else 0)
      + (if listContains cq (lowerL e.article_title.data) then 3 else 0))).sum

/-- `(b.score || 0)` in the sort comparator. -/
def scoreVal (r : SearchResult) : Nat := r.score.getD 0

/-- Stable descending insertion: the model of the (stable) JavaScript
`sort((a, b) => (b.score || 0) - (a.score || 0))`. -/
def insertDesc (x : SearchResult) : List SearchResult → List SearchResult
  | [] => [x]
  | y :: t => if scoreVal y ≤ scoreVal x then x :: y :: t else y :: insertDesc x t

def sortByScoreDesc : List SearchResult → List SearchResult
  | [] => []
  | x :: t => insertDesc x (sortByScoreDesc t)

/-- The failure modes of searchEvents: a failed `connect()`, an unknown
language partition (`Invalid language` throw), a failed tier-2 `find` with
the store unreachable, and a tier-2 `find` rejected by the store because a
`$regex` value in the query is not syntactically valid (all rethrown to the
caller). -/
inductive DBError
  | connectionFailed
  | invalidLanguage
  | findFailed
  | invalidRegex
deriving DecidableEq

/-- Position context of the regex syntax scan: start of a pattern, group or
alternative (nothing to repeat there), after a repeatable atom, after a
quantifier, after a lazy/possessive quantifier modifier. -/
inductive RegexPrev
  | start
  | atom
  | quant
  | quantMod
deriving DecidableEq

/-- State of the regex syntax scan. -/
structure RegexScanState where
  ok : Bool
  depth : Nat
  inClass : Bool
  esc : Bool
  prev : RegexPrev
deriving DecidableEq

/-- Models the external regex engine that compiles a `$regex` value before
the store executes the `find`: one character of the syntax check — a
backslash escapes the next character, `[...]` is a character class,
unmatched `)` or a quantifier with nothing to repeat is an error, `(`
opens a group, `|` starts an alternative; a quantifier may carry one lazy
or possessive modifier.  Finer engine-specific rules (brace-quantifier
contents, class ranges) are out of model: their characters count as
literals. -/
def regexStep (st : RegexScanState) (c : Char) : RegexScanState :=
  if !st.ok then st
  else if st.esc then
    if st.inClass then { st with esc := false }
    else { st with esc := false, prev := RegexPrev.atom }
  else if st.inClass then
    if c = '\\' then { st with esc := true }
    else if c = ']' then { st with inClass := false, prev := RegexPrev.atom }
    else st
  else if c = '\\' then { st with esc := true }
  else if c = '(' then { st with depth := st.depth + 1, prev := RegexPrev.start }
  else if c = ')' then
    if st.depth = 0 then { st with ok := false }
    else { st with depth := st.depth - 1, prev := RegexPrev.atom }
  else if c = '[' then { st with inClass := true }
  else if c = '|' then { st with prev := RegexPrev.start }
  else if c = '*' then
    if st.prev = RegexPrev.atom then { st with prev := RegexPrev.quant }
    else { st with ok := false }
  else if c = '+' ∨ c = '?' then
    if st.prev = RegexPrev.atom then { st with prev := RegexPrev.quant }
    else if st.prev = RegexPrev.quant then { st with prev := RegexPrev.quantMod }
    else { st with ok := false }
  else { st with prev := RegexPrev.atom }

/-- Is the string a syntactically valid regex pattern?  Valid means the scan
never errored, every group and character class is closed, and no escape
dangles.  `searchEvents` passes query words unescaped as `$regex` values, so
a word like `((` makes the store reject the whole `find`. -/
def regexSyntaxOk (w : List Char) : Bool :=
  let st := w.foldl regexStep
    { ok := true, depth := 0, inClass := false, esc := false, prev := RegexPrev.start }
  st.ok && st.depth == 0 && !st.inClass && !st.esc

/-- The `$regex` values of the tier-2 `searchQuery`, in build order: the
escaped clean query of the exact-phrase block (when pushed) and the
unescaped words of the per-word block (when pushed). -/
def tier2Patterns (cq : List Char) (qw : List (List Char)) : List (List Char) :=
  (if 2 < cq.length then [escapeRegex cq] else []) ++
  (if 1 < qw.length then qw else [])

/-- The external collaborators of one searchEvents call: whether `connect()`
fails, the language-keyed collections, the outcome of the tier-1 indexed
text search (`none` = it throws), and whether the document store is
unreachable for the tier-2 `find`. -/
structure SearchEnv where
  connectFails : Bool
  collections : String → Option (List EventDoc)
  tier1 : Option (List SearchResult)
  findFails : Bool

/-- The tier-2 fallback block of searchEvents: run the regex query over the
collection, score, and stable-sort descending.  The `find` fails when the
store is unreachable, and also — deterministically — when some `$regex`
value of the built query is not a syntactically valid pattern (only the
unescaped per-word block can produce one; see `regexSyntaxOk_escape`). -/
def tier2Search (corpus : List EventDoc) (cq : List Char) (qw : List (List Char))
    (findFails : Bool) : Except DBError (List SearchResult) :=
  if findFails then Except.error DBError.findFailed
  else if (tier2Patterns cq qw).any (fun p => !(regexSyntaxOk p)) then
    Except.error DBError.invalidRegex
  else Except.ok (sortByScoreDesc
    ((corpus.filter (docMatchesTier2 cq qw)).map (fun d => toResult d (scoreDoc cq qw d))))

/-- `searchEvents(query, language)` of database.ts. -/
def searchEvents (env : SearchEnv) (query language : String) :
    Except DBError (List SearchResult) :=
  if env.connectFails then Except.error DBError.connectionFailed
  else
    match env.collections language with
    | none => Except.error DBError.invalidLanguage
    | some corpus =>
      let cq := normQuery query
      let qw := queryWordsOf query
      if qw.length ≤ 2 ∧ 2 < cq.length then
        match env.tier1 with
        | some textResults =>
          if 0 < textResults.length then Except.ok textResults
          else tier2Search corpus cq qw env.findFails
        | none => tier2Search corpus cq qw env.findFails
      else tier2Search corpus cq qw env.findFails

/-- Response body of the Next.js route. -/
inductive RouteBody
  | errorMsg (message : String)
  | success (data : List SearchResult)
deriving DecidableEq

structure HttpResponse where
  status : Nat
  body : RouteBody
deriving DecidableEq

/-- The message of the 500 branch (`error.message`); the driver texts of the
external failures are opaque, the in-repo throw is `Invalid language`. -/
def errMessage (language : String) : DBError → String
  | DBError.connectionFailed => "MongoDB connection failed"
  | DBError.invalidLanguage => "Invalid language: " ++ language
  | DBError.findFailed => "find failed"
  | DBError.invalidRegex => "Regular expression is invalid"

/-- The `GET` handler of `app/api/historical-events/search/route.ts`. -/
def routeGET (env : SearchEnv) (qParam languageParam : Option String) : HttpResponse :=
  let query := qParam.getD ""
  let language := languageParam.getD "ar"
  if (trimL query.data).isEmpty then
    { status := 400, body := RouteBody.errorMsg "Query parameter 'q' is required" }
  else
    match searchEvents env query language with
    | Except.ok events => { status := 200, body := RouteBody.success events }
    | Except.error e => { status := 500, body := RouteBody.errorMsg (errMessage language e) }

/-!
## ArticleStructurer (Stage 3 of the data pipeline)

The Stage-3 structuring/citation-linking script itself is not among the
source files of the repository (only its documentation is), so the component
is modelled from the spec, §3–§4.1.
-/

/-- Modelled from the spec: the `ArticleDraft` input of the missing Stage-3
structuring script — title, raw marked-up text, and the ordered source-id
list (position i ↔ citation number i+1). -/
structure ArticleDraft where
  title : String
  rawText : String
  orderedSourceIds : List String
deriving DecidableEq

/-- Modelled from the spec: a resolved source record of the catalog. -/
structure SourceEntry where
  source_uid : String
  url : String
deriving DecidableEq

/-- Modelled from the spec: a paragraph of the structured output —
`paragraph_id` of the shape `s{i}_p{j}`, marker-stripped `text`, and the
duplicate-collapsed `source_uids` it cites. -/
structure StructuredParagraph where
  paragraph_id : String
  text : String
  source_uids : List String
deriving DecidableEq

structure StructuredSection where
  subtitle : String
  paragraphs : List StructuredParagraph
deriving DecidableEq

/-- Modelled from the spec: the persisted `StructuredArticle` shape. -/
structure StructuredArticle where
  event_name : String
  article_title : String
  sections : List StructuredSection
  source_list : List SourceEntry
deriving DecidableEq

/-- State of the citation-marker tokenizer: completed markers, and — when
inside an open bracket — the numbers read so far plus the digits of the
number in progress. -/
structure MarkerState where
  found : List (List Nat)
  pending : Option (List Nat × Option Nat)
deriving DecidableEq

/-- Modelled from the spec: one step of the tokenizer for markers of the
shape bracket, one or more integers separated by comma/space, bracket;
anything malformed is tolerated and skipped. -/
def stepMarker (st : MarkerState) (c : Char) : MarkerState :=
  if c = '[' then { st with pending := some ([], none) }
  else
    match st.pending with
    | none => st
    | some (ns, cur) =>
      if c.isDigit then
        { st with pending := some (ns, some (10 * cur.getD 0 + (c.toNat - 48))) }
      else if c = ',' ∨ c.isWhitespace then
        { st with pending := some (ns ++ cur.toList, none) }
      else if c = ']' then
        let ms := ns ++ cur.toList
        if ms.isEmpty then { st with pending := none }
        else { found := st.found ++ [ms], pending := none }
      else { st with pending := none }

/-- Modelled from the spec: all well-formed citation markers of a paragraph
line, each as its list of integers. -/
def findMarkers (s : String) : List (List Nat) :=
  (s.data.foldl stepMarker { found := [], pending := none }).found

/-- Modelled from the spec: resolve marker numbers against the ordered
source-id list; a number out of the 1-based range is skipped (dangling
citation, non-fatal). -/
def resolveMarks (ids : List String) (nums : List Nat) : List String :=
  nums.filterMap fun n => if 1 ≤ n then ids.get? (n - 1) else none

/-- State of the marker-stripping pass: emitted output and, inside an open
bracket, the raw characters read since `[` together with tokenizer data. -/
structure StripState where
  out : List Char
  raw : List Char
  pending : Option (List Nat × Option Nat)
deriving DecidableEq

/-- Modelled from the spec: one step of stripping well-formed markers from a
paragraph while echoing everything else. -/
def stepStrip (st : StripState) (c : Char) : StripState :=
  if c = '[' then { out := st.out ++ st.raw, raw := [c], pending := some ([], none) }
  else
    match st.pending with
    | none => { st with out := st.out ++ [c] }
    | some (ns, cur) =>
      if c.isDigit then
        { st with raw := st.raw ++ [c],
                  pending := some (ns, some (10 * cur.getD 0 + (c.toNat - 48))) }
      else if c = ',' ∨ c.isWhitespace then
        { st with raw := st.raw ++ [c], pending := some (ns ++ cur.toList, none) }
      else if c = ']' then
        if (ns ++ cur.toList).isEmpty then
          { out := st.out ++ st.raw ++ [c], raw := [], pending := none }
        else { st with raw := [], pending := none }
      else { out := st.out ++ st.raw ++ [c], raw := [], pending := none }

/-- Collapse runs of double spaces left by marker removal. -/
def squeezeSpaces : List Char → List Char
  | [] => []
  | a :: t =>
    match t with
    | [] => [a]
    | b :: _ => if a = ' ' ∧ b = ' ' then squeezeSpaces t else a :: squeezeSpaces t

/-- Modelled from the spec: strip all well-formed citation markers from a
paragraph text and normalize the surrounding whitespace. -/
def stripMarkers (s : String) : String :=
  let fin := s.data.foldl stepStrip { out := [], raw := [], pending := none }
  String.mk (trimL (squeezeSpaces (fin.out ++ fin.raw)))

/-- Is the line a second-level heading (`## `)? -/
def isH2 (l : List Char) : Bool := "## ".data.isPrefixOf l

/-- Is the line a top-level heading (`# `)? -/
def isH1 (l : List Char) : Bool := "# ".data.isPrefixOf l

/-- Split the raw text into lines. -/
def splitNl : List Char → List (List Char)
  | [] => [[]]
  | c :: t =>
    if c = '\n' then [] :: splitNl t
    else
      match splitNl t with
      | [] => [[c]]
      | l :: ls => (c :: l) :: ls

/-- State of the line scan: the captured title, the completed sections
(subtitle and paragraph lines), and the section being built. -/
structure BuildState where
  title : Option (List Char)
  secs : List (List Char × List (List Char))
  cur : List Char × List (List Char)
deriving DecidableEq

/-- Close the current section; a leading implicit section that has neither a
subtitle nor a paragraph is dropped. -/
def pushCur (st : BuildState) : List (List Char × List (List Char)) :=
  if st.cur.1 = [] ∧ st.cur.2 = [] then st.secs else st.secs ++ [st.cur]

/-- Modelled from the spec: one line of the scan — `## ` starts a new
section, the first `# ` line is the title and any later one a section
boundary, blank lines separate paragraphs, and every other line is one
paragraph of the current section. -/
def stepLine (st : BuildState) (l : List Char) : BuildState :=
  if isH2 l then
    { st with secs := pushCur st, cur := (trimL (l.drop 3), []) }
  else if isH1 l then
    match st.title with
    | none => { st with title := some (trimL (l.drop 2)) }
    | some _ => { st with secs := pushCur st, cur := (trimL (l.drop 2), []) }
  else if trimL l = [] then st
  else { st with cur := (st.cur.1, st.cur.2 ++ [l]) }

/-- Modelled from the spec: scan the raw text into a title and the
subtitle/paragraph-line groups of its sections. -/
def parseBody (raw : String) : Option (List Char) × List (List Char × List (List Char)) :=
  let st := (splitNl raw.data).foldl stepLine { title := none, secs := [], cur := ([], []) }
  (st.title, pushCur st)

/-- Modelled from the spec: build a paragraph — 1-based `s{i}_p{j}` id,
marker-stripped text, and the duplicate-collapsed resolved citations. -/
def buildParagraph (ids : List String) (si pj : Nat) (line : List Char) : StructuredParagraph :=
  { paragraph_id := "s" ++ toString si ++ "_p" ++ toString pj,
    text := stripMarkers (String.mk line),
    source_uids := (resolveMarks ids (findMarkers (String.mk line)).flatten).dedup }

/-- Modelled from the spec: number the sections and their paragraphs. -/
def buildSections (ids : List String) (secs : List (List Char × List (List Char))) :
    List StructuredSection :=
  secs.mapIdx fun i sl =>
    { subtitle := String.mk sl.1,
      paragraphs := sl.2.mapIdx fun j line => buildParagraph ids (i + 1) (j + 1) line }

/-- The union (with duplicates collapsed) of the cited source ids over all
paragraphs of the article. -/
def unionUids (secs : List StructuredSection) : List String :=
  ((secs.map (fun s => s.paragraphs.map (fun p => p.source_uids))).flatten).flatten

/-- Modelled from the spec: `structure(draft, sourceCatalogLookup)` of the
missing Stage-3 script — the whole ArticleStructurer transform. -/
def structureDraft (draft : ArticleDraft) (lookup : String → Option SourceEntry) :
    StructuredArticle :=
  let parsed := parseBody draft.rawText
  let sections := buildSections draft.orderedSourceIds parsed.2
  { event_name := draft.title,
    article_title := String.mk (parsed.1.getD draft.title.data),
    sections := sections,
    source_list := ((unionUids sections).dedup).filterMap lookup }

/-- The non-heading, non-blank lines of the raw text: exactly the lines that
become paragraphs. -/
def bodyLines (raw : String) : List (List Char) :=
  (splitNl raw.data).filter fun l => ¬ isH2 l ∧ ¬ isH1 l ∧ trimL l ≠ []

/-- Every marker number of the raw text, scanned line by line (headings
included). -/
def allMarkerNums (raw : String) : List Nat :=
  (((splitNl raw.data).map (fun l => (findMarkers (String.mk l)).flatten)).flatten)

/-- Follows the claim's words: the set of `orderedSourceIds` entries
referenced by at least one citation marker anywhere in `rawText`. -/
def referencedUidsSpec (draft : ArticleDraft) : List String :=
  (resolveMarks draft.orderedSourceIds (allMarkerNums draft.rawText)).dedup

/-- The set of `orderedSourceIds` entries referenced by a citation marker in
a non-heading line of `rawText`. -/
def referencedUidsBody (draft : ArticleDraft) : List String :=
  (resolveMarks draft.orderedSourceIds
    (((bodyLines draft.rawText).map (fun l => (findMarkers (String.mk l)).flatten)).flatten)).dedup

deriving instance DecidableEq for Except

/-- Follows the spec's words for a tier-2 match condition: some indexed field
of the document contains the given string as a case-insensitive substring
(to be compared with the regex-based conditions of the code). -/
def docContainsCI (d : EventDoc) (n : List Char) : Bool :=
  (docFields d).any fun f => listContains (lowerL n) (lowerL f.data)

/-- A document that matches no non-trivial query: fixture for the short-query
counterexample. -/
def docZ : EventDoc :=
  { docId := "1", big_event_name := "zzzz",
    events := [{ event_name := "en", article_title := "at", sections := [] }] }

/-- A healthy environment whose `en` partition holds only `docZ` and whose
tier-1 index returns no results. -/
def envZ : SearchEnv :=
  { connectFails := false,
    collections := fun l => if l = "en" then some [docZ] else none,
    tier1 := some [], findFails := false }

/-- The group document of the spec's end-to-end search scenario. -/
def docRoman : EventDoc :=
  { docId := "r", big_event_name := "Roman Invasion of Mauretania", events := [] }

/-- The unrelated document of the spec's end-to-end search scenario. -/
def docBerber : EventDoc :=
  { docId := "b", big_event_name := "Berber Dynasties", events := [] }

/-- Environment holding the two-document scenario corpus, with an empty
tier-1 answer. -/
def envRoman : SearchEnv :=
  { connectFails := false,
    collections := fun l => if l = "en" then some [docRoman, docBerber] else none,
    tier1 := some [], findFails := false }

/-- A tier-1 hit, used to exercise the tier-1 short-circuit. -/
def resT1 : SearchResult :=
  { docId := "t", big_event_name := "indexed hit", events := [], score := some 7 }

/-- Environment whose tier-1 index returns `resT1` even though the stored
corpus is `[docZ]` and tier-2 would fail. -/
def envT1 : SearchEnv :=
  { connectFails := false,
    collections := fun l => if l = "en" then some [docZ] else none,
    tier1 := some [resT1], findFails := true }

/-- Environment with no reachable partition at all. -/
def envBad : SearchEnv :=
  { connectFails := false, collections := fun _ => none,
    tier1 := none, findFails := false }

/-- A document matched by the word-regex `a.c` without containing `a.c`
literally. -/
def docC9 : EventDoc :=
  { docId := "9", big_event_name := "abc y stuff", events := [] }

/-- Draft whose only citation marker sits in a heading line. -/
def draftH : ArticleDraft :=
  { title := "T", rawText := "## Heading [1]\nBody.", orderedSourceIds := ["A"] }

/-- The spec's end-to-end structuring scenario draft. -/
def draftEx : ArticleDraft :=
  { title := "T",
    rawText := "# Title\n## Background\nRomans invaded in 44.[1] Local tribes resisted.[2, 1]",
    orderedSourceIds := ["src-A", "src-B"] }

example : normQuery "  Roman Invasion " = "roman invasion".data := by decide
example : queryWordsOf "  Roman Invasion " = ["roman".data, "invasion".data] := by decide
example : listContains "rom".data "roman".data = true := by decide
example : listContains "rom".data "roxman".data = false := by decide
example : patSearch (parsePat "a.c".data) "xAbC y".data = true := by decide
example : patSearch (parsePat (escapeRegex "a.c".data)) "xAbC y".data = false := by decide
example : findMarkers "resisted.[2, 1]" = [[2, 1]] := by decide
example : findMarkers "a [x] b [12] c []" = [[12]] := by decide
example : stripMarkers "Romans invaded in 44.[1] Local tribes resisted.[2, 1]"
    = "Romans invaded in 44. Local tribes resisted." := by decide
example :
    structureDraft
      { title := "T",
        rawText := "# Title\n## Background\nRomans invaded in 44.[1] Local tribes resisted.[2, 1]",
        orderedSourceIds := ["src-A", "src-B"] }
      (fun u => some { source_uid := u, url := "u" })
    = { event_name := "T", article_title := "Title",
        sections := [{ subtitle := "Background",
                       paragraphs := [{ paragraph_id := "s1_p1",
                                        text := "Romans invaded in 44. Local tribes resisted.",
                                        source_uids := ["src-B", "src-A"] }] }],
        source_list := [{ source_uid := "src-B", url := "u" },
                        { source_uid := "src-A", url := "u" }] } := by decide

/-! ## Substring search, word splitting and regex lemmas -/

theorem listContains_iff {n h : List Char} : listContains n h = true ↔ n <:+: h := by
  induction h with
  | nil => simp [listContains, List.infix_nil, List.isEmpty_iff]
  | cons c t ih =>
    simp [listContains, ih, List.infix_cons_iff, List.isPrefixOf_iff_prefix]

theorem mem_splitWsAux_infix :
    ∀ (cs acc w : List Char), w ∈ splitWsAux cs acc → w <:+: (acc.reverse ++ cs) := by
  intro cs
  induction cs with
  | nil =>
    intro acc w h
    unfold splitWsAux at h
    by_cases ha : acc.isEmpty
    · simp [ha] at h
    · simp [ha] at h
      subst h
      exact (List.prefix_append acc.reverse []).isInfix
  | cons c t ih =>
    intro acc w h
    unfold splitWsAux at h
    by_cases hw : c.isWhitespace
    · have hsub : w ∈ splitWsAux t [] → w <:+: acc.reverse ++ c :: t := by
        intro hm
        have h1 := ih [] w hm
        simp only [List.reverse_nil, List.nil_append] at h1
        have h2 : t <:+: acc.reverse ++ c :: t := by
          have h3 : (t : List Char) <:+ acc.reverse ++ c :: t := by
            rw [show acc.reverse ++ c :: t = (acc.reverse ++ [c]) ++ t by simp]
            exact List.suffix_append _ t
          exact h3.isInfix
        exact h1.trans h2
      by_cases ha : acc.isEmpty
      · simp [hw, ha] at h
        exact hsub h
      · simp [hw, ha] at h
        rcases h with h | h
        · subst h
          exact (List.prefix_append acc.reverse (c :: t)).isInfix
        · exact hsub h
    · simp [hw] at h
      have h1 := ih (c :: acc) w h
      rw [List.reverse_cons, List.append_assoc, List.singleton_append] at h1
      exact h1

theorem mem_splitWs_infix {cs w : List Char} (h : w ∈ splitWs cs) : w <:+: cs := by
  have := mem_splitWsAux_infix cs [] w h
  simpa using this

theorem parsePat_cons_of_ne {c : Char} (h1 : c ≠ '\\') (h2 : c ≠ '.') (t : List Char) :
    parsePat (c :: t) = PatItem.lit c :: parsePat t := by
  rw [parsePat.eq_def]
  split
  · simp_all
  · simp_all
  · simp_all
  · simp_all
  · simp_all

theorem parsePat_escape : ∀ cs : List Char, parsePat (escapeRegex cs) = cs.map PatItem.lit := by
  intro cs
  induction cs with
  | nil => rfl
  | cons c t ih =>
    by_cases hm : isRegexMeta c
    · simp only [escapeRegex, hm, if_true]
      simp [parsePat, ih]
    · simp only [escapeRegex, hm, Bool.false_eq_true, if_false]
      have h1 : c ≠ '\\' := by
        intro h; subst h; simp [isRegexMeta] at hm
      have h2 : c ≠ '.' := by
        intro h; subst h; simp [isRegexMeta] at hm
      rw [parsePat_cons_of_ne h1 h2, ih]
      rfl

theorem patMatchAt_lit : ∀ (n h : List Char),
    patMatchAt (n.map PatItem.lit) h = (lowerL n).isPrefixOf (lowerL h) := by
  intro n
  induction n with
  | nil => intro h; simp [patMatchAt, lowerL, List.isPrefixOf]
  | cons a n ih =>
    intro h
    cases h with
    | nil => simp [patMatchAt, lowerL, List.isPrefixOf]
    | cons c t =>
      simp [patMatchAt, lowerL, List.isPrefixOf, itemMatch, ih t]

theorem patSearch_lit : ∀ (n h : List Char),
    patSearch (n.map PatItem.lit) h = listContains (lowerL n) (lowerL h) := by
  intro n h
  induction h with
  | nil => cases n <;> simp [patSearch, listContains, lowerL]
  | cons c t ih =>
    have hl : lowerL (c :: t) = Char.toLower c :: lowerL t := by simp [lowerL]
    rw [patSearch, hl, listContains, ← hl, patMatchAt_lit, ih]

theorem phraseCond_eq (cq : List Char) (d : EventDoc) : phraseCond cq d = docContainsCI d cq := by
  unfold phraseCond docContainsCI
  simp only [parsePat_escape, patSearch_lit]

theorem docMatchesTier2_iff {cq : List Char} {qw : List (List Char)} {d : EventDoc} :
    docMatchesTier2 cq qw d = true ↔
      ((¬ 2 < cq.length ∧ ¬ 1 < qw.length) ∨
       (2 < cq.length ∧ phraseCond cq d = true) ∨
       (1 < qw.length ∧ wordCond qw d = true)) := by
  unfold docMatchesTier2
  by_cases h1 : 2 < cq.length <;> by_cases h2 : 1 < qw.length <;>
    simp [h1, h2]

/-! ## Sorting lemmas -/

theorem mem_insertDesc {x y : SearchResult} {l : List SearchResult} :
    y ∈ insertDesc x l ↔ y = x ∨ y ∈ l := by
  induction l with
  | nil => simp [insertDesc]
  | cons a t ih =>
    by_cases h : scoreVal a ≤ scoreVal x
    · simp [insertDesc, h, List.mem_cons]
    · simp [insertDesc, h, List.mem_cons, ih]
      tauto

theorem sorted_insertDesc {x : SearchResult} {l : List SearchResult}
    (hs : l.Pairwise (fun a b => scoreVal b ≤ scoreVal a)) :
    (insertDesc x l).Pairwise (fun a b => scoreVal b ≤ scoreVal a) := by
  induction l with
  | nil => simp [insertDesc]
  | cons a t ih =>
    rcases List.pairwise_cons.mp hs with ⟨ha, ht⟩
    by_cases h : scoreVal a ≤ scoreVal x
    · rw [insertDesc, if_pos h]
      refine List.pairwise_cons.mpr ⟨?_, hs⟩
      intro b hb
      rcases List.mem_cons.mp hb with rfl | hb
      · exact h
      · exact le_trans (ha b hb) h
    · rw [insertDesc, if_neg h]
      refine List.pairwise_cons.mpr ⟨?_, ih ht⟩
      intro b hb
      rcases mem_insertDesc.mp hb with rfl | hb
      · exact le_of_not_le h
      · exact ha b hb

theorem sorted_sortByScoreDesc (l : List SearchResult) :
    (sortByScoreDesc l).Pairwise (fun a b => scoreVal b ≤ scoreVal a) := by
  induction l with
  | nil => simp [sortByScoreDesc]
  | cons a t ih => exact sorted_insertDesc ih

theorem perm_insertDesc (x : SearchResult) (l : List SearchResult) :
    (insertDesc x l).Perm (x :: l) := by
  induction l with
  | nil => exact List.Perm.refl _
  | cons a t ih =>
    by_cases h : scoreVal a ≤ scoreVal x
    · rw [insertDesc, if_pos h]
    · rw [insertDesc, if_neg h]
      exact (ih.cons a).trans (List.Perm.swap x a t)

theorem perm_sortByScoreDesc (l : List SearchResult) : (sortByScoreDesc l).Perm l := by
  induction l with
  | nil => exact List.Perm.refl _
  | cons a t ih =>
    rw [sortByScoreDesc]
    exact (perm_insertDesc a (sortByScoreDesc t)).trans (ih.cons a)

theorem filter_insertDesc (x : SearchResult) (l : List SearchResult) (s : Nat) :
    (insertDesc x l).filter (fun r => scoreVal r == s)
      = (x :: l).filter (fun r => scoreVal r == s) := by
  induction l with
  | nil => rfl
  | cons a t ih =>
    by_cases h : scoreVal a ≤ scoreVal x
    · rw [insertDesc, if_pos h]
    · rw [insertDesc, if_neg h]
      have hlt : scoreVal x < scoreVal a := Nat.lt_of_not_le h
      simp only [List.filter_cons, ih]
      by_cases hx : scoreVal x = s <;> by_cases ha2 : scoreVal a = s <;>
        simp [hx, ha2]
      omega

theorem filter_sortByScoreDesc (l : List SearchResult) (s : Nat) :
    (sortByScoreDesc l).filter (fun r => scoreVal r == s)
      = l.filter (fun r => scoreVal r == s) := by
  induction l with
  | nil => rfl
  | cons a t ih =>
    rw [sortByScoreDesc, filter_insertDesc]
    simp only [List.filter_cons, ih]

/-! ## Structurer lemmas -/

theorem pushCur_lines (st : BuildState) :
    ((pushCur st).map Prod.snd).flatten = (st.secs.map Prod.snd).flatten ++ st.cur.2 := by
  unfold pushCur
  by_cases hc : st.cur.1 = [] ∧ st.cur.2 = []
  · simp [hc, hc.2]
  · simp [hc]

theorem stepLine_lines (st : BuildState) (l : List Char) :
    ((stepLine st l).secs.map Prod.snd).flatten ++ (stepLine st l).cur.2
      = ((st.secs.map Prod.snd).flatten ++ st.cur.2)
        ++ (if ¬ isH2 l ∧ ¬ isH1 l ∧ trimL l ≠ [] then [l] else []) := by
  unfold stepLine
  by_cases h2 : isH2 l
  · simp [h2, pushCur_lines]
  · by_cases h1 : isH1 l
    · cases ht : st.title with
      | none => simp [h2, h1, ht]
      | some s => simp [h2, h1, ht, pushCur_lines]
    · by_cases hb : trimL l = []
      · simp [h2, h1, hb]
      · simp [h2, h1, hb, List.append_assoc]

theorem foldl_lines : ∀ (ls : List (List Char)) (st : BuildState),
    ((ls.foldl stepLine st).secs.map Prod.snd).flatten ++ (ls.foldl stepLine st).cur.2
      = ((st.secs.map Prod.snd).flatten ++ st.cur.2)
        ++ ls.filter (fun l => ¬ isH2 l ∧ ¬ isH1 l ∧ trimL l ≠ []) := by
  intro ls
  induction ls with
  | nil => intro st; simp
  | cons l ls ih =>
    intro st
    rw [List.foldl_cons, ih, stepLine_lines, List.filter_cons]
    by_cases hp : ¬ isH2 l ∧ ¬ isH1 l ∧ trimL l ≠ []
    · simp [hp, List.append_assoc]
    · simp only [Bool.not_eq_true] at hp
      simp [hp]

theorem parseBody_lines (raw : String) :
    ((parseBody raw).2.map Prod.snd).flatten = bodyLines raw := by
  unfold parseBody bodyLines
  rw [pushCur_lines, foldl_lines]
  simp

theorem mapIdx_proj {α β γ : Type} (f : Nat → α → β) (g : β → γ) (h : α → γ)
    (hfg : ∀ i a, g (f i a) = h a) (l : List α) : (l.mapIdx f).map g = l.map h := by
  rw [List.mapIdx_eq_enum_map, List.map_map]
  have : (g ∘ Function.uncurry f) = h ∘ Prod.snd := by
    funext p
    exact hfg p.1 p.2
  rw [this, ← List.map_map, List.enum_map_snd]

theorem buildSections_uids (ids : List String) (secs : List (List Char × List (List Char))) :
    ((buildSections ids secs).map (fun s => s.paragraphs.map (fun p => p.source_uids))).flatten
      = ((secs.map Prod.snd).flatten.map
          (fun l => (resolveMarks ids (findMarkers (String.mk l)).flatten).dedup)) := by
  unfold buildSections
  rw [mapIdx_proj _ _
    (fun sl => sl.2.map (fun l => (resolveMarks ids (findMarkers (String.mk l)).flatten).dedup))]
  · rw [List.map_flatten]
    congr 1
    rw [List.map_map]
    rfl
  · intro i sl
    simp only
    rw [mapIdx_proj _ _
      (fun l => (resolveMarks ids (findMarkers (String.mk l)).flatten).dedup)]
    intro j line
    rfl

theorem mem_unionUids_structureDraft (draft : ArticleDraft)
    (lookup : String → Option SourceEntry) (x : String) :
    x ∈ unionUids (structureDraft draft lookup).sections ↔ x ∈ referencedUidsBody draft := by
  unfold structureDraft unionUids referencedUidsBody
  simp only
  rw [buildSections_uids, parseBody_lines]
  simp only [resolveMarks]
  constructor
  · intro hx
    rcases List.mem_flatten.mp hx with ⟨u, hu, hxu⟩
    rcases List.mem_map.mp hu with ⟨l, hl, rfl⟩
    rcases List.mem_filterMap.mp (List.mem_dedup.mp hxu) with ⟨n, hn, hg⟩
    refine List.mem_dedup.mpr (List.mem_filterMap.mpr ⟨n, ?_, hg⟩)
    exact List.mem_flatten.mpr ⟨_, List.mem_map.mpr ⟨l, hl, rfl⟩, hn⟩
  · intro hx
    rcases List.mem_filterMap.mp (List.mem_dedup.mp hx) with ⟨n, hn, hg⟩
    rcases List.mem_flatten.mp hn with ⟨ms, hms, hnms⟩
    rcases List.mem_map.mp hms with ⟨l, hl, rfl⟩
    refine List.mem_flatten.mpr ⟨_, List.mem_map.mpr ⟨l, hl, rfl⟩, ?_⟩
    exact List.mem_dedup.mpr (List.mem_filterMap.mpr ⟨n, hnms, hg⟩)

/-! ## Control-flow equations of searchEvents -/

theorem searchEvents_connectFails {env : SearchEnv} {q lang : String}
    (hc : env.connectFails = true) :
    searchEvents env q lang = Except.error DBError.connectionFailed := by
  unfold searchEvents
  rw [hc]
  simp

theorem searchEvents_invalidLang {env : SearchEnv} {q lang : String}
    (hc : env.connectFails = false) (hcol : env.collections lang = none) :
    searchEvents env q lang = Except.error DBError.invalidLanguage := by
  unfold searchEvents
  rw [hc, hcol]
  simp

theorem searchEvents_not_cond {env : SearchEnv} {corpus : List EventDoc} {q lang : String}
    (hc : env.connectFails = false) (hcol : env.collections lang = some corpus)
    (hcond : ¬ ((queryWordsOf q).length ≤ 2 ∧ 2 < (normQuery q).length)) :
    searchEvents env q lang
      = tier2Search corpus (normQuery q) (queryWordsOf q) env.findFails := by
  unfold searchEvents
  rw [hc, hcol]
  simp [hcond]

theorem searchEvents_tier1_hit {env : SearchEnv} {corpus : List EventDoc} {q lang : String}
    {rs : List SearchResult}
    (hc : env.connectFails = false) (hcol : env.collections lang = some corpus)
    (hcond : (queryWordsOf q).length ≤ 2 ∧ 2 < (normQuery q).length)
    (ht : env.tier1 = some rs) (hlen : 0 < rs.length) :
    searchEvents env q lang = Except.ok rs := by
  unfold searchEvents
  rw [hc, hcol]
  simp [hcond, ht, hlen]

theorem searchEvents_tier1_miss {env : SearchEnv} {corpus : List EventDoc} {q lang : String}
    (hc : env.connectFails = false) (hcol : env.collections lang = some corpus)
    (hcond : (queryWordsOf q).length ≤ 2 ∧ 2 < (normQuery q).length)
    (ht : env.tier1 = some []) :
    searchEvents env q lang
      = tier2Search corpus (normQuery q) (queryWordsOf q) env.findFails := by
  unfold searchEvents
  rw [hc, hcol]
  simp [hcond, ht]

theorem searchEvents_tier1_err {env : SearchEnv} {corpus : List EventDoc} {q lang : String}
    (hc : env.connectFails = false) (hcol : env.collections lang = some corpus)
    (hcond : (queryWordsOf q).length ≤ 2 ∧ 2 < (normQuery q).length)
    (ht : env.tier1 = none) :
    searchEvents env q lang
      = tier2Search corpus (normQuery q) (queryWordsOf q) env.findFails := by
  unfold searchEvents
  rw [hc, hcol]
  simp [hcond, ht]

theorem regexStep_escape : ∀ (cs : List Char) (st : RegexScanState),
    st.ok = true → st.inClass = false → st.esc = false →
    ((escapeRegex cs).foldl regexStep st).ok = true
    ∧ ((escapeRegex cs).foldl regexStep st).depth = st.depth
    ∧ ((escapeRegex cs).foldl regexStep st).inClass = false
    ∧ ((escapeRegex cs).foldl regexStep st).esc = false := by
  intro cs
  induction cs with
  | nil => intro st h1 h2 h3; simp [escapeRegex, h1, h2, h3]
  | cons c t ih =>
    intro st h1 h2 h3
    by_cases hm : isRegexMeta c
    · have e1 : regexStep st '\\' = { st with esc := true } := by
        unfold regexStep
        simp [h1, h2, h3]
      have e2 : regexStep { st with esc := true } c
          = { st with esc := false, prev := RegexPrev.atom } := by
        unfold regexStep
        simp [h1, h2]
      simp only [escapeRegex, hm, if_true, List.foldl_cons, e1, e2]
      have hrest := ih { st with esc := false, prev := RegexPrev.atom } h1 h2 rfl
      simpa using hrest
    · have hb : c ≠ '\\' := fun hx => by subst hx; simp [isRegexMeta] at hm
      have hp1 : c ≠ '(' := fun hx => by subst hx; simp [isRegexMeta] at hm
      have hp2 : c ≠ ')' := fun hx => by subst hx; simp [isRegexMeta] at hm
      have hp3 : c ≠ '[' := fun hx => by subst hx; simp [isRegexMeta] at hm
      have hp4 : c ≠ '|' := fun hx => by subst hx; simp [isRegexMeta] at hm
      have hp5 : c ≠ '*' := fun hx => by subst hx; simp [isRegexMeta] at hm
      have hp6 : c ≠ '+' := fun hx => by subst hx; simp [isRegexMeta] at hm
      have hp7 : c ≠ '?' := fun hx => by subst hx; simp [isRegexMeta] at hm
      have e1 : regexStep st c = { st with prev := RegexPrev.atom } := by
        unfold regexStep
        simp [h1, h2, h3, hb, hp1, hp2, hp3, hp4, hp5, hp6, hp7]
      simp only [escapeRegex, hm, Bool.false_eq_true, if_false, List.foldl_cons, e1]
      have hrest := ih { st with prev := RegexPrev.atom } h1 h2 h3
      simpa using hrest

/-- The escaped exact-phrase pattern always compiles: escaping yields only
literals and complete backslash escapes. -/
theorem regexSyntaxOk_escape (cs : List Char) : regexSyntaxOk (escapeRegex cs) = true := by
  unfold regexSyntaxOk
  rcases regexStep_escape cs
      { ok := true, depth := 0, inClass := false, esc := false, prev := RegexPrev.start }
      rfl rfl rfl with ⟨h1, h2, h3, h4⟩
  simp [h1, h2, h3, h4]

theorem tier2Patterns_any_iff {cq : List Char} {qw : List (List Char)} :
    (tier2Patterns cq qw).any (fun p => !(regexSyntaxOk p)) = true
      ↔ 1 < qw.length ∧ qw.any (fun w => !(regexSyntaxOk w)) = true := by
  unfold tier2Patterns
  by_cases h1 : 2 < cq.length <;> by_cases h2 : 1 < qw.length <;>
    simp [h1, h2, regexSyntaxOk_escape]

theorem tier2Search_error {corpus : List EventDoc} {cq : List Char} {qw : List (List Char)}
    {ff : Bool} {e : DBError}
    (h : tier2Search corpus cq qw ff = Except.error e) :
    (e = DBError.findFailed ∧ ff = true)
    ∨ (e = DBError.invalidRegex
        ∧ (tier2Patterns cq qw).any (fun p => !(regexSyntaxOk p)) = true) := by
  cases ff with
  | true =>
    left
    simp [tier2Search] at h
    exact ⟨h.symm, rfl⟩
  | false =>
    right
    cases hp : (tier2Patterns cq qw).any (fun p => !(regexSyntaxOk p)) with
    | true =>
      simp [tier2Search, hp] at h
      exact ⟨h.symm, rfl⟩
    | false => simp [tier2Search, hp] at h

theorem tier2Search_ok {corpus : List EventDoc} {cq : List Char} {qw : List (List Char)}
    {rs : List SearchResult}
    (h : tier2Search corpus cq qw false = Except.ok rs) :
    rs = sortByScoreDesc
      ((corpus.filter (docMatchesTier2 cq qw)).map (fun d => toResult d (scoreDoc cq qw d))) := by
  cases hp : (tier2Patterns cq qw).any (fun p => !(regexSyntaxOk p)) with
  | true => simp [tier2Search, hp] at h
  | false => simpa [tier2Search, hp] using h.symm

theorem listContains_nil : ∀ h : List Char, listContains [] h = true := by
  intro h
  cases h <;> simp [listContains, List.isPrefixOf]

/-! ## Claims -/

/-- C1, counterexample: on a healthy one-document corpus, searchEvents with
the whitespace-only query `"  "` does not return an empty result sequence —
the empty tier-2 condition list leaves the Mongo query `{}`, so the whole
corpus comes back (scored 21 here), refuting the claimed empty result. -/
theorem c1_counterexample :
    searchEvents envZ "  " "en" = Except.ok [toResult docZ 21] ∧
      searchEvents envZ "  " "en" ≠ Except.ok [] := by
  constructor
  · decide
  · decide

/-- C1, amended: for every language partition and corpus, searchEvents with a
query that is empty after trimming raises no error, but instead of an empty
sequence it returns the entire corpus (every document matches the empty
`{}` query and gets scored). -/
theorem c1_empty_query_returns_corpus (env : SearchEnv) (corpus : List EventDoc)
    (q lang : String) (hq : trimL q.data = [])
    (hc : env.connectFails = false) (hcol : env.collections lang = some corpus)
    (hf : env.findFails = false) :
    ∃ rs, searchEvents env q lang = Except.ok rs ∧ rs.length = corpus.length ∧
      (rs.map resultDoc).Perm corpus := by
  have hnq : normQuery q = [] := by rw [normQuery, hq]; rfl
  have hqw : queryWordsOf q = [] := by rw [queryWordsOf, hnq]; rfl
  have hcond : ¬ ((queryWordsOf q).length ≤ 2 ∧ 2 < (normQuery q).length) := by
    rw [hnq]; simp
  have hmatch : corpus.filter (docMatchesTier2 [] []) = corpus := by
    apply List.filter_eq_self.mpr
    intro d _
    rfl
  rw [searchEvents_not_cond hc hcol hcond, hf, hnq, hqw]
  rw [show tier2Search corpus [] [] false
      = Except.ok (sortByScoreDesc
          ((corpus.filter (docMatchesTier2 [] [])).map
            (fun d => toResult d (scoreDoc [] [] d)))) from by
    simp [tier2Search, tier2Patterns]]
  rw [hmatch]
  refine ⟨_, rfl, ?_, ?_⟩
  · rw [(perm_sortByScoreDesc _).length_eq, List.length_map]
  · refine ((perm_sortByScoreDesc _).map resultDoc).trans ?_
    rw [List.map_map]
    have hid : (resultDoc ∘ fun d => toResult d (scoreDoc [] [] d)) = id := by
      funext d; rfl
    rw [hid, List.map_id]

/-- C1 witness: the amended statement at the whitespace query `"  "` on the
one-document corpus of `envZ`. -/
theorem c1_witness :
    trimL ("  ".data) = [] ∧
    (∃ rs, searchEvents envZ "  " "en" = Except.ok rs ∧
      rs.length = ([docZ] : List EventDoc).length ∧ (rs.map resultDoc).Perm [docZ]) :=
  ⟨by decide, c1_empty_query_returns_corpus envZ [docZ] "  " "en" (by decide) rfl (by decide) rfl⟩

/-- C2: tier-1 is attempted exactly under `queryWords.length ≤ 2` and
`cleanQuery.length > 2`; a non-empty tier-1 answer is returned directly (the
tier-2 fallback never runs, whatever its state), an empty one falls through,
and outside the guard the tier-1 oracle is never consulted. -/
theorem c2_tier1_gating (env : SearchEnv) (corpus : List EventDoc) (q lang : String)
    (rs : List SearchResult)
    (hc : env.connectFails = false) (hcol : env.collections lang = some corpus) :
    (((queryWordsOf q).length ≤ 2 ∧ 2 < (normQuery q).length) → env.tier1 = some rs →
        rs ≠ [] → searchEvents env q lang = Except.ok rs)
    ∧ (((queryWordsOf q).length ≤ 2 ∧ 2 < (normQuery q).length) → env.tier1 = some [] →
        searchEvents env q lang
          = tier2Search corpus (normQuery q) (queryWordsOf q) env.findFails)
    ∧ (¬ ((queryWordsOf q).length ≤ 2 ∧ 2 < (normQuery q).length) →
        ∀ o : Option (List SearchResult),
          searchEvents { env with tier1 := o } q lang
            = tier2Search corpus (normQuery q) (queryWordsOf q) env.findFails) := by
  refine ⟨?_, ?_, ?_⟩
  · intro hcond ht hne
    exact searchEvents_tier1_hit hc hcol hcond ht (List.length_pos.mpr hne)
  · intro hcond ht
    exact searchEvents_tier1_miss hc hcol hcond ht
  · intro hcond o
    exact @searchEvents_not_cond { env with tier1 := o } corpus q lang hc hcol hcond

/-- C2 witness: the gating statement at the short query `"rome"` in an
environment whose tier-1 index answers `[resT1]` while tier-2 would fail. -/
theorem c2_witness :
    ((((queryWordsOf "rome").length ≤ 2 ∧ 2 < (normQuery "rome").length) →
        envT1.tier1 = some [resT1] → [resT1] ≠ [] →
        searchEvents envT1 "rome" "en" = Except.ok [resT1])
    ∧ ((((queryWordsOf "rome").length ≤ 2 ∧ 2 < (normQuery "rome").length) →
        envT1.tier1 = some [] →
        searchEvents envT1 "rome" "en"
          = tier2Search [docZ] (normQuery "rome") (queryWordsOf "rome") envT1.findFails))
    ∧ (¬ ((queryWordsOf "rome").length ≤ 2 ∧ 2 < (normQuery "rome").length) →
        ∀ o : Option (List SearchResult),
          searchEvents { envT1 with tier1 := o } "rome" "en"
            = tier2Search [docZ] (normQuery "rome") (queryWordsOf "rome") envT1.findFails)) :=
  c2_tier1_gating envT1 [docZ] "rome" "en" [resT1] rfl (by decide)

/-- C6: a tier-1 error (`tier1 = none`) is absorbed — the call behaves
exactly like a tier-1 answer of zero results and ends in the tier-2
fallback; no tier-1 error reaches the caller. -/
theorem c6_tier1_error_fallback (env : SearchEnv) (corpus : List EventDoc) (q lang : String)
    (hc : env.connectFails = false) (hcol : env.collections lang = some corpus) :
    searchEvents { env with tier1 := none } q lang
      = tier2Search corpus (normQuery q) (queryWordsOf q) env.findFails
    ∧ searchEvents { env with tier1 := none } q lang
      = searchEvents { env with tier1 := some [] } q lang := by
  by_cases hcond : (queryWordsOf q).length ≤ 2 ∧ 2 < (normQuery q).length
  · have h1 := @searchEvents_tier1_err { env with tier1 := none } corpus q lang hc hcol hcond rfl
    have h2 := @searchEvents_tier1_miss { env with tier1 := some [] } corpus q lang hc hcol hcond rfl
    exact ⟨h1, h1.trans h2.symm⟩
  · have h1 := @searchEvents_not_cond { env with tier1 := none } corpus q lang hc hcol hcond
    have h2 := @searchEvents_not_cond { env with tier1 := some [] } corpus q lang hc hcol hcond
    exact ⟨h1, h1.trans h2.symm⟩

/-- C6 witness: the fallback statement at query `"rome"` on the corpus of
`envZ`. -/
theorem c6_witness :
    searchEvents { envZ with tier1 := none } "rome" "en"
      = tier2Search [docZ] (normQuery "rome") (queryWordsOf "rome") envZ.findFails
    ∧ searchEvents { envZ with tier1 := none } "rome" "en"
      = searchEvents { envZ with tier1 := some [] } "rome" "en" :=
  c6_tier1_error_fallback envZ [docZ] "rome" "en" rfl (by decide)

/-- C8, counterexample: on a fully healthy environment — connect succeeds,
the `en` partition holds a corpus, the store is reachable — the two-word
query `"(( (("` makes searchEvents fail: its words go unescaped into
`$regex`, `((` is not a valid pattern, and the store rejects the tier-2
`find`.  Tier-2 thus has a failure mode the claim denies, one that is
neither an unknown partition nor an unreachable store. -/
theorem c8_counterexample :
    searchEvents envZ "(( ((" "en" = Except.error DBError.invalidRegex
    ∧ envZ.connectFails = false
    ∧ envZ.collections "en" = some [docZ]
    ∧ envZ.findFails = false := by
  refine ⟨by decide, rfl, by decide, rfl⟩

/-- C8, amended: every error of searchEvents is one of exactly four kinds —
a failed `connect()`, an unknown language partition, a tier-2 `find` with
the store unreachable, or a tier-2 `find` rejected because the per-word
block is present (more than one query word) and some unescaped query word is
not a syntactically valid regex; the escaped exact-phrase pattern never
triggers the last mode.  All four are propagated to the caller. -/
theorem c8_error_modes (env : SearchEnv) (q lang : String) (e : DBError)
    (h : searchEvents env q lang = Except.error e) :
    (e = DBError.connectionFailed ∧ env.connectFails = true)
    ∨ (e = DBError.invalidLanguage ∧ env.collections lang = none)
    ∨ (e = DBError.findFailed ∧ env.findFails = true)
    ∨ (e = DBError.invalidRegex ∧ 1 < (queryWordsOf q).length
        ∧ (queryWordsOf q).any (fun w => !(regexSyntaxOk w)) = true) := by
  by_cases hc : env.connectFails = true
  · left
    rw [searchEvents_connectFails hc] at h
    injection h with h2
    exact ⟨h2.symm, hc⟩
  · have hc' : env.connectFails = false := by simpa using hc
    cases hcol : env.collections lang with
    | none =>
      right; left
      rw [searchEvents_invalidLang hc' hcol] at h
      injection h with h2
      exact ⟨h2.symm, rfl⟩
    | some corpus =>
      right; right
      by_cases hcond : (queryWordsOf q).length ≤ 2 ∧ 2 < (normQuery q).length
      · cases ht : env.tier1 with
        | none =>
          rw [searchEvents_tier1_err hc' hcol hcond ht] at h
          rcases tier2Search_error h with ⟨he, hf⟩ | ⟨he, hp⟩
          · exact Or.inl ⟨he, hf⟩
          · exact Or.inr ⟨he, (tier2Patterns_any_iff.mp hp).1,
              (tier2Patterns_any_iff.mp hp).2⟩
        | some rs =>
          by_cases hlen : 0 < rs.length
          · rw [searchEvents_tier1_hit hc' hcol hcond ht hlen] at h
            cases h
          · have hrs : rs = [] := List.eq_nil_of_length_eq_zero (by omega)
            subst hrs
            rw [searchEvents_tier1_miss hc' hcol hcond ht] at h
            rcases tier2Search_error h with ⟨he, hf⟩ | ⟨he, hp⟩
            · exact Or.inl ⟨he, hf⟩
            · exact Or.inr ⟨he, (tier2Patterns_any_iff.mp hp).1,
                (tier2Patterns_any_iff.mp hp).2⟩
      · rw [searchEvents_not_cond hc' hcol hcond] at h
        rcases tier2Search_error h with ⟨he, hf⟩ | ⟨he, hp⟩
        · exact Or.inl ⟨he, hf⟩
        · exact Or.inr ⟨he, (tier2Patterns_any_iff.mp hp).1,
            (tier2Patterns_any_iff.mp hp).2⟩

/-- C8 witness: the amended characterization at the invalid-regex query on
the healthy environment. -/
theorem c8_witness :
    (DBError.invalidRegex = DBError.connectionFailed ∧ envZ.connectFails = true)
    ∨ (DBError.invalidRegex = DBError.invalidLanguage ∧ envZ.collections "en" = none)
    ∨ (DBError.invalidRegex = DBError.findFailed ∧ envZ.findFails = true)
    ∨ (DBError.invalidRegex = DBError.invalidRegex
        ∧ 1 < (queryWordsOf "(( ((").length
        ∧ (queryWordsOf "(( ((").any (fun w => !(regexSyntaxOk w)) = true) :=
  c8_error_modes envZ "(( ((" "en" DBError.invalidRegex (by decide)

/-- C10: a GET on the search route whose `q` parameter is missing, empty or
whitespace-only answers 400 with the error body, independently of the whole
search environment — searchEvents is never consulted, so the core-level
empty-query behavior is unreachable through this route. -/
theorem c10_route_empty_query_400 (env : SearchEnv) (qParam languageParam : Option String)
    (hq : (trimL (qParam.getD "").data).isEmpty = true) :
    routeGET env qParam languageParam
      = { status := 400, body := RouteBody.errorMsg "Query parameter 'q' is required" } := by
  unfold routeGET
  simp [hq]

/-- C10 witness: the route rejection at a whitespace-only `q` parameter. -/
theorem c10_witness :
    routeGET envZ (some "   ") none
      = { status := 400, body := RouteBody.errorMsg "Query parameter 'q' is required" } :=
  c10_route_empty_query_400 envZ (some "   ") none (by decide)

/-- C3, counterexample: the query `"ab"` (one word, two characters) reaches
tier-2 with an empty condition list, so a document satisfying neither match
condition is still returned instead of being excluded. -/
theorem c3_counterexample :
    searchEvents envZ "ab" "en" = Except.ok [toResult docZ 0] ∧
      docContainsCI docZ (normQuery "ab") = false ∧
      wordCond (queryWordsOf "ab") docZ = false := by
  refine ⟨by decide, by decide, by decide⟩

/-- C3, amended: when at least one of the two tier-2 conditions is
applicable (normalized query longer than 2, or more than one word), every
returned document satisfies an applicable condition — the exact phrase as a
case-insensitive substring of some field, or every word matching as an
unescaped case-insensitive regex — and every document satisfying neither is
excluded; when neither condition is applicable the query stays `{}` and the
whole corpus is returned. -/
theorem c3_tier2_match_filtering (corpus : List EventDoc) (cq : List Char)
    (qw : List (List Char)) (rs : List SearchResult)
    (h : tier2Search corpus cq qw false = Except.ok rs) :
    ((2 < cq.length ∨ 1 < qw.length) →
      (∀ r ∈ rs, (2 < cq.length ∧ docContainsCI (resultDoc r) cq = true)
        ∨ (1 < qw.length ∧ wordCond qw (resultDoc r) = true))
      ∧ (∀ d ∈ corpus,
          ¬ (2 < cq.length ∧ docContainsCI d cq = true) →
          ¬ (1 < qw.length ∧ wordCond qw d = true) →
          d ∉ rs.map resultDoc))
    ∧ (¬ (2 < cq.length ∨ 1 < qw.length) → (rs.map resultDoc).Perm corpus) := by
  have hrs := tier2Search_ok h
  subst hrs
  have hmapid : ∀ l : List EventDoc,
      (l.map (fun d => toResult d (scoreDoc cq qw d))).map resultDoc = l := by
    intro l
    rw [List.map_map]
    have hid : (resultDoc ∘ fun d => toResult d (scoreDoc cq qw d)) = id := by
      funext d; rfl
    rw [hid, List.map_id]
  constructor
  · intro hor
    constructor
    · intro r hr
      have hr2 : r ∈ (corpus.filter (docMatchesTier2 cq qw)).map
          (fun d => toResult d (scoreDoc cq qw d)) :=
        (perm_sortByScoreDesc _).mem_iff.mp hr
      rcases List.mem_map.mp hr2 with ⟨d, hd, rfl⟩
      have hd2 := (List.mem_filter.mp hd).2
      rcases docMatchesTier2_iff.mp hd2 with ⟨hn1, hn2⟩ | ⟨hl, hp⟩ | ⟨hw, hwc⟩
      · exact absurd hor (by simp [hn1, hn2])
      · left
        refine ⟨hl, ?_⟩
        rw [show resultDoc (toResult d (scoreDoc cq qw d)) = d from rfl, ← phraseCond_eq]
        exact hp
      · right
        refine ⟨hw, ?_⟩
        rw [show resultDoc (toResult d (scoreDoc cq qw d)) = d from rfl]
        exact hwc
    · intro d hd hnp hnw hmem
      have h2 : d ∈ ((corpus.filter (docMatchesTier2 cq qw)).map
          (fun d => toResult d (scoreDoc cq qw d))).map resultDoc :=
        ((perm_sortByScoreDesc _).map resultDoc).mem_iff.mp hmem
      rw [hmapid] at h2
      have hmt := (List.mem_filter.mp h2).2
      rcases docMatchesTier2_iff.mp hmt with ⟨hn1, hn2⟩ | ⟨hl, hp⟩ | ⟨hw, hwc⟩
      · exact absurd hor (by simp [hn1, hn2])
      · exact hnp ⟨hl, by rw [← phraseCond_eq]; exact hp⟩
      · exact hnw ⟨hw, hwc⟩
  · intro hnor
    have hfilter : corpus.filter (docMatchesTier2 cq qw) = corpus := by
      apply List.filter_eq_self.mpr
      intro d _
      exact docMatchesTier2_iff.mpr
        (Or.inl ⟨fun hx => hnor (Or.inl hx), fun hx => hnor (Or.inr hx)⟩)
    refine ((perm_sortByScoreDesc _).map resultDoc).trans ?_
    rw [hfilter, hmapid]

/-- C3 witness: the amended statement at the spec's two-document scenario
for the query `"roman invasion"`. -/
theorem c3_witness :
    tier2Search [docRoman, docBerber] (normQuery "roman invasion")
        (queryWordsOf "roman invasion") false = Except.ok [toResult docRoman 15]
    ∧ (((2 < (normQuery "roman invasion").length ∨ 1 < (queryWordsOf "roman invasion").length) →
        (∀ r ∈ [toResult docRoman 15],
          (2 < (normQuery "roman invasion").length
            ∧ docContainsCI (resultDoc r) (normQuery "roman invasion") = true)
          ∨ (1 < (queryWordsOf "roman invasion").length
            ∧ wordCond (queryWordsOf "roman invasion") (resultDoc r) = true))
        ∧ (∀ d ∈ [docRoman, docBerber],
            ¬ (2 < (normQuery "roman invasion").length
              ∧ docContainsCI d (normQuery "roman invasion") = true) →
            ¬ (1 < (queryWordsOf "roman invasion").length
              ∧ wordCond (queryWordsOf "roman invasion") d = true) →
            d ∉ ([toResult docRoman 15].map resultDoc)))
      ∧ (¬ (2 < (normQuery "roman invasion").length
            ∨ 1 < (queryWordsOf "roman invasion").length) →
          (([toResult docRoman 15].map resultDoc)).Perm [docRoman, docBerber])) :=
  ⟨by decide, c3_tier2_match_filtering [docRoman, docBerber] (normQuery "roman invasion")
    (queryWordsOf "roman invasion") [toResult docRoman 15] (by decide)⟩

/-- C5: under the tier-2 scoring, a document whose group name contains the
normalized query gets a strictly greater score than any document in which
the query appears in no field at all. -/
theorem c5_search_monotonicity (q : String) (D Dp : EventDoc)
    (hD : listContains (normQuery q) (lowerL D.big_event_name.data) = true)
    (hDp : ∀ f ∈ docFields Dp, listContains (normQuery q) (lowerL f.data) = false) :
    scoreDoc (normQuery q) (queryWordsOf q) Dp < scoreDoc (normQuery q) (queryWordsOf q) D := by
  have hword : listContains ((queryWordsOf q).headD []) (lowerL D.big_event_name.data) = true := by
    rcases hqw : queryWordsOf q with _ | ⟨w, ws⟩
    · simpa using listContains_nil (lowerL D.big_event_name.data)
    · have hwmem : w ∈ queryWordsOf q := by rw [hqw]; exact List.mem_cons_self w ws
      have hw := mem_splitWs_infix hwmem
      have hcq := listContains_iff.mp hD
      simpa [hqw] using listContains_iff.mpr (hw.trans hcq)
  have h1 : listContains (normQuery q) (lowerL Dp.big_event_name.data) = false :=
    hDp Dp.big_event_name (List.mem_cons_self _ _)
  have hsum : (Dp.events.map (fun e =>
      (if listContains (normQuery q) (lowerL e.event_name.data) then 3 else 0)
      + (if listContains (normQuery q) (lowerL e.article_title.data) then 3 else 0))).sum
        = 0 := by
    apply List.sum_eq_zero
    intro x hx
    rcases List.mem_map.mp hx with ⟨e, he, rfl⟩
    have hen : e.event_name ∈ docFields Dp := by
      unfold docFields
      refine List.mem_cons.mpr (Or.inr ?_)
      refine List.mem_append.mpr (Or.inl ?_)
      refine List.mem_append.mpr (Or.inl ?_)
      refine List.mem_append.mpr (Or.inl ?_)
      exact List.mem_map.mpr ⟨e, he, rfl⟩
    have hat : e.article_title ∈ docFields Dp := by
      unfold docFields
      refine List.mem_cons.mpr (Or.inr ?_)
      refine List.mem_append.mpr (Or.inl ?_)
      refine List.mem_append.mpr (Or.inl ?_)
      refine List.mem_append.mpr (Or.inr ?_)
      exact List.mem_map.mpr ⟨e, he, rfl⟩
    rw [hDp _ hen, hDp _ hat]
    simp
  simp only [scoreDoc, hD, hword, h1, hsum, if_true, Bool.false_eq_true, if_false]
  have hle : (if listContains ((queryWordsOf q).headD []) (lowerL Dp.big_event_name.data)
      then (5 : Nat) else 0) ≤ 5 := by
    split <;> omega
  omega

/-- C5 witness: the monotonicity statement for the query `"roman invasion"`
between the matching and the unrelated scenario documents. -/
theorem c5_witness :
    listContains (normQuery "roman invasion") (lowerL docRoman.big_event_name.data) = true
    ∧ (∀ f ∈ docFields docBerber,
        listContains (normQuery "roman invasion") (lowerL f.data) = false)
    ∧ scoreDoc (normQuery "roman invasion") (queryWordsOf "roman invasion") docBerber
        < scoreDoc (normQuery "roman invasion") (queryWordsOf "roman invasion") docRoman :=
  ⟨by decide, by decide,
    c5_search_monotonicity "roman invasion" docRoman docBerber (by decide) (by decide)⟩

/-- C7: the tier-2 result is sorted by score in descending order, and the
documents of any fixed score appear as a sublist of the corpus — the
original corpus order is preserved among equal scores. -/
theorem c7_tier2_sorted_stable (corpus : List EventDoc) (cq : List Char)
    (qw : List (List Char)) (rs : List SearchResult)
    (h : tier2Search corpus cq qw false = Except.ok rs) :
    rs.Pairwise (fun a b => scoreVal b ≤ scoreVal a)
    ∧ ∀ s : Nat, ((rs.filter (fun r => scoreVal r == s)).map resultDoc).Sublist corpus := by
  have hrs := tier2Search_ok h
  subst hrs
  constructor
  · exact sorted_sortByScoreDesc _
  · intro s
    rw [filter_sortByScoreDesc, List.filter_map, List.map_map]
    have hid : (resultDoc ∘ fun d => toResult d (scoreDoc cq qw d)) = id := by
      funext d; rfl
    rw [hid, List.map_id]
    exact (List.filter_sublist _).trans (List.filter_sublist _)

/-- C7 witness: the sortedness and stability statement at the two-document
scenario corpus. -/
theorem c7_witness :
    tier2Search [docRoman, docBerber] (normQuery "roman invasion")
        (queryWordsOf "roman invasion") false = Except.ok [toResult docRoman 15]
    ∧ (([toResult docRoman 15] : List SearchResult).Pairwise
          (fun a b => scoreVal b ≤ scoreVal a)
      ∧ ∀ s : Nat, (([toResult docRoman 15].filter (fun r => scoreVal r == s)).map
          resultDoc).Sublist [docRoman, docBerber]) :=
  ⟨by decide, c7_tier2_sorted_stable [docRoman, docBerber] (normQuery "roman invasion")
    (queryWordsOf "roman invasion") [toResult docRoman 15] (by decide)⟩

/-- C9: the escaped exact-phrase regex of tier-2 is exactly case-insensitive
literal substring search, while an unescaped query word acts as a pattern:
for the multi-word query `"a.c y"` the per-word condition accepts a document
none of whose fields contains `a.c` literally. -/
theorem c9_regex_escape_asymmetry :
    (∀ n h : List Char,
        patSearch (parsePat (escapeRegex n)) h = listContains (lowerL n) (lowerL h))
    ∧ wordCond (queryWordsOf "a.c y") docC9 = true
    ∧ docContainsCI docC9 ("a.c".data) = false
    ∧ 1 < (queryWordsOf "a.c y").length := by
  refine ⟨?_, by decide, by decide, by decide⟩
  intro n h
  rw [parsePat_escape, patSearch_lit]

/-- C4, counterexample: a draft whose only (in-range) citation marker sits
in a heading line — the marker is referenced in `rawText` but collected by
no paragraph, so the union of paragraph source ids misses it. -/
theorem c4_counterexample :
    (allMarkerNums draftH.rawText).all
        (fun n => decide (1 ≤ n) && decide (n ≤ draftH.orderedSourceIds.length)) = true
    ∧ unionUids (structureDraft draftH (fun u => some { source_uid := u, url := "u" })).sections
        = []
    ∧ referencedUidsSpec draftH = ["A"] := by
  refine ⟨by decide, by decide, by decide⟩

/-- C4, amended: for every draft with only in-range markers, the union of
`sourceIds` over all paragraphs of the structured output equals the set of
`orderedSourceIds` entries referenced by at least one marker in a
non-heading line of `rawText` (markers in heading lines are not collected). -/
theorem c4_citation_roundtrip (draft : ArticleDraft) (lookup : String → Option SourceEntry)
    (h : ∀ n ∈ allMarkerNums draft.rawText, 1 ≤ n ∧ n ≤ draft.orderedSourceIds.length) :
    (unionUids (structureDraft draft lookup).sections).toFinset
      = (referencedUidsBody draft).toFinset := by
  apply Finset.ext
  intro a
  rw [List.mem_toFinset, List.mem_toFinset]
  exact mem_unionUids_structureDraft draft lookup a

/-- C4 witness: the amended round-trip at the spec's end-to-end scenario
draft. -/
theorem c4_witness :
    (∀ n ∈ allMarkerNums draftEx.rawText, 1 ≤ n ∧ n ≤ draftEx.orderedSourceIds.length)
    ∧ (unionUids (structureDraft draftEx
          (fun u => some { source_uid := u, url := "u" })).sections).toFinset
        = (referencedUidsBody draftEx).toFinset :=
  ⟨by decide, c4_citation_roundtrip draftEx
    (fun u => some { source_uid := u, url := "u" }) (by decide)⟩
